import Mathlib

/-!
Verification development for the scraper in `lab_5_scrapper/scrapper.py`.

The Python module is shallowly embedded: pure helpers become Lean functions,
the mutable crawler objects become explicit state records, Python exceptions
become explicit error values, and the network together with the HTML soup
become oracle functions supplied as parameters.  The pieces of the Python
standard library actually exercised by the scraper (`urllib.parse.urljoin`,
`urllib.parse.urlsplit`, `datetime.strptime` for the one fixed format,
`json` object access) are modelled from CPython's documented behaviour,
restricted to the features the scraper touches (no `;params` component, no
control-character stripping, no bracket validation in netlocs).
-/

/-! ## Character-list string utilities -/

/-- Split a character list at the first occurrence of `sep`;
if `sep` is absent the whole input is returned unchanged with an empty
second component (mirrors Python `s.split(sep, 1)` guarded by `sep in s`). -/
def splitAtFirst (sep : Char) (l : List Char) : List Char × List Char :=
  let pre := l.takeWhile (fun c => c != sep)
  let post := l.dropWhile (fun c => c != sep)
  match post with
  | [] => (l, [])
  | _ :: rest => (pre, rest)

/-- Python `s.split('/')`: split on every slash, keeping empty pieces. -/
def splitSlash : List Char → List (List Char)
  | [] => [[]]
  | '/' :: rest => [] :: splitSlash rest
  | c :: rest =>
    match splitSlash rest with
    | s :: ss => (c :: s) :: ss
    | [] => [[c]]

/-- Python `'/'.join(parts)`. -/
def joinSlash (parts : List (List Char)) : List Char :=
  List.intercalate ['/'] parts

/-! ## Model of `urllib.parse` (urlsplit / urlunsplit / urljoin) -/

/-- The five components produced by `urllib.parse.urlsplit`. -/
structure SplitUrl where
  scheme : List Char
  netloc : List Char
  path : List Char
  query : List Char
  fragment : List Char
deriving DecidableEq, Repr

/-- Split a URL at its first colon (the candidate scheme separator). -/
def splitAtColon : List Char → Option (List Char × List Char)
  | [] => none
  | c :: rest =>
    if c = ':' then some ([], rest)
    else
      match splitAtColon rest with
      | some (pre, post) => some (c :: pre, post)
      | none => none

/-- CPython's `scheme_chars`: letters, digits, and the three marks. -/
def isSchemeChar (c : Char) : Bool :=
  c.isAlphanum || c == '+' || c == '-' || c == '.'

/-- CPython accepts the text before the first colon as a scheme when it is
nonempty, starts with an ASCII letter, and uses only scheme characters. -/
def validSchemePre : List Char → Bool
  | [] => false
  | c :: rest => c.isAlpha && (c :: rest).all isSchemeChar

/-- Extract an explicit (lowercased) scheme from a URL, with the remainder,
exactly when CPython's `urlsplit` would. -/
def schemeSplit (url : List Char) : Option (List Char × List Char) :=
  match splitAtColon url with
  | some (pre, post) =>
    if validSchemePre pre then some (pre.map Char.toLower, post) else none
  | none => none

/-- The netloc runs up to the first `/`, `?` or `#` after the `//`. -/
def splitNetloc (l : List Char) : List Char × List Char :=
  (l.takeWhile (fun c => !(c == '/' || c == '?' || c == '#')),
   l.dropWhile (fun c => !(c == '/' || c == '?' || c == '#')))

/-- Model of `urllib.parse.urlsplit(url, defaultScheme)`: scheme first,
then netloc after a leading `//`, then the fragment, then the query. -/
def urlsplitL (url : List Char) (defaultScheme : List Char) : SplitUrl :=
  let sp := match schemeSplit url with
    | some (s, r) => (s, r)
    | none => (defaultScheme, url)
  let np := if sp.2.take 2 = ['/', '/'] then splitNetloc (sp.2.drop 2)
            else ([], sp.2)
  let fp := splitAtFirst '#' np.2
  let qp := splitAtFirst '?' fp.1
  ⟨sp.1, np.1, qp.1, qp.2, fp.2⟩

/-- The netloc-plus-path part rebuilt by `urlunsplit`, before the scheme is
prepended and the query and fragment are appended. -/
def urlunsplitTail (u : SplitUrl) : List Char :=
  let url0 :=
    if u.netloc ≠ [] ∨ (u.path ≠ [] ∧ u.path.take 2 = ['/', '/']) then
      '/' :: '/' :: (u.netloc ++
        (if u.path ≠ [] ∧ u.path.head? ≠ some '/' then '/' :: u.path
         else u.path))
    else u.path
  url0 ++ (if u.query ≠ [] then '?' :: u.query else [])
       ++ (if u.fragment ≠ [] then '#' :: u.fragment else [])

/-- Model of `urllib.parse.urlunsplit`. -/
def urlunsplitL (u : SplitUrl) : List Char :=
  if u.scheme ≠ [] then u.scheme ++ ':' :: urlunsplitTail u
  else urlunsplitTail u

/-- CPython `uses_relative`: schemes that take part in relative resolution. -/
def usesRelative : List (List Char) :=
  ["", "ftp", "http", "gopher", "nntp", "imap", "wais", "file", "https",
   "shttp", "mms", "prospero", "rtsp", "rtspu", "sftp", "svn", "svn+ssh",
   "ws", "wss"].map String.data

/-- CPython `uses_netloc`: schemes whose URLs carry a network location. -/
def usesNetloc : List (List Char) :=
  ["", "ftp", "http", "gopher", "nntp", "telnet", "imap", "wais", "file",
   "mms", "https", "shttp", "snews", "prospero", "rtsp", "rtspu", "rsync",
   "svn", "svn+ssh", "sftp", "nfs", "git", "git+ssh", "ws", "wss"].map
    String.data

/-- Python slice assignment `segments[1:-1] = filter(None, segments[1:-1])`:
drop empty pieces strictly between the first and the last element. -/
def filterMiddle : List (List Char) → List (List Char)
  | [] => []
  | [x] => [x]
  | x :: xs => x :: (xs.dropLast.filter (fun s => !s.isEmpty)
      ++ [xs.getLast?.getD []])

/-- The merged segment list for a relative path: the base directory segments
followed by the relative segments, with redundant empties dropped. -/
def mergeBaseSegs (bpath upath : List Char) : List (List Char) :=
  let baseParts := splitSlash bpath
  let baseParts := if baseParts.getLast?.getD [] ≠ [] then baseParts.dropLast
                   else baseParts
  filterMiddle (baseParts ++ splitSlash upath)

/-- The `..` / `.` resolution loop of `urljoin`. -/
def resolveDots : List (List Char) → List (List Char) → List (List Char)
  | [], acc => acc
  | seg :: rest, acc =>
    if seg = ['.', '.'] then resolveDots rest acc.dropLast
    else if seg = ['.'] then resolveDots rest acc
    else resolveDots rest (acc ++ [seg])

/-- Everything `urljoin` does after deciding that the two schemes agree. -/
def urljoinRest (b u : SplitUrl) : List Char :=
  if u.scheme ∈ usesNetloc ∧ u.netloc ≠ [] then urlunsplitL u
  else
    let netloc := if u.scheme ∈ usesNetloc then b.netloc else u.netloc
    if u.path = [] then
      urlunsplitL ⟨u.scheme, netloc, b.path,
        (if u.query = [] then b.query else u.query), u.fragment⟩
    else
      let segments :=
        if u.path.head? = some '/' then splitSlash u.path
        else mergeBaseSegs b.path u.path
      let rp := resolveDots segments []
      let rp := if segments.getLast?.getD [] = ['.', '.']
                   ∨ segments.getLast?.getD [] = ['.'] then rp ++ [[]]
                else rp
      let fp := if joinSlash rp = [] then ['/'] else joinSlash rp
      urlunsplitL ⟨u.scheme, netloc, fp, u.query, u.fragment⟩

/-- Model of `urllib.parse.urljoin(base, url)`. -/
def urljoinL (base url : List Char) : List Char :=
  if base = [] then url
  else if url = [] then base
  else
    let b := urlsplitL base []
    let u := urlsplitL url b.scheme
    if u.scheme ≠ b.scheme ∨ u.scheme ∉ usesRelative then url
    else urljoinRest b u

/-- String-level `urljoin`. -/
def urljoinS (base url : String) : String :=
  String.mk (urljoinL base.data url.data)

/-- The scheme component a bare `urlparse(url)` reports. -/
def schemeOfL (url : List Char) : List Char :=
  (urlsplitL url []).scheme

/-- String-level scheme of `urlparse(url)`. -/
def urlparseSchemeS (s : String) : String :=
  String.mk (schemeOfL s.data)

/-- String-level netloc of `urlparse(url)`. -/
def urlparseNetlocS (s : String) : String :=
  String.mk (urlsplitL s.data []).netloc

/-- String-level path of `urlparse(url)`. -/
def urlparsePathS (s : String) : String :=
  String.mk (urlsplitL s.data []).path


/-! ## Crawler model (`Crawler` and `CrawlerRecursive`) -/

/-- The fixed base the scraper resolves hrefs against. -/
def gazetaBase : String := "https://www.business-gazeta.ru/"

/-- An anchor node as the crawler sees it: its `href` attribute (absent or a
string) and its class list. -/
structure Anchor where
  href : Option String
  classes : List String
deriving DecidableEq, Repr

/-- `Crawler._extract_url`: an absent or empty `href` yields the empty
string; otherwise the href is joined against the fixed base and, should the
joined URL have no scheme, `"http://"` is prepended. -/
def extract_url (a : Anchor) : String :=
  match a.href with
  | some h =>
    if h ≠ "" then
      let full := urljoinS gazetaBase h
      if urlparseSchemeS full = "" then "http://" ++ full else full
    else ""
  | none => ""

/-- The anchor class the non-recursive crawler selects. -/
def articleClass : String := "article-news__title"

/-- The inner anchor loop of `Crawler.find_articles`: the Bool records
whether the `return` on reaching the target count fired. -/
def crawlPage (cap : Nat) : List String → List Anchor → List String × Bool
  | urls, [] => (urls, false)
  | urls, a :: rest =>
    if cap ≤ urls.length then (urls, true)
    else
      let url := extract_url a
      if url = "" ∨ url ∈ urls then crawlPage cap urls rest
      else crawlPage cap (urls ++ [url]) rest

/-- `Crawler.find_articles`: seeds are scanned in order; each page
contributes its anchors bearing the article class; scanning stops once the
configured count is reached. -/
def find_articles (cap : Nat) (fetch : String → List Anchor) :
    List String → List String → List String
  | urls, [] => urls
  | urls, seed :: seeds =>
    let page := (fetch seed).filter (fun a => articleClass ∈ a.classes)
    let r := crawlPage cap urls page
    if r.2 then r.1 else find_articles cap fetch r.1 seeds

/-- The mutable state of `CrawlerRecursive`: discovered article urls,
visited listing urls, the cursor `num_visited_urls`, and `start_url`. -/
structure RecState where
  urls : List String
  visited_urls : List String
  num_visited_urls : Nat
  start_url : String
deriving DecidableEq, Repr

/-- The current listing URL of one expansion step: `visited_urls[cursor-1]`
when the cursor is nonzero, else `start_url`; `none` models the IndexError
raised when the index is out of range. -/
def recCurrent (s : RecState) : Option String :=
  if s.num_visited_urls ≠ 0 then s.visited_urls.get? (s.num_visited_urls - 1)
  else some s.start_url

/-- The per-anchor body of `CrawlerRecursive.find_articles`: a resolvable
anchor may extend `urls` (fresh and below the cap); otherwise the raw href
may extend `visited_urls` (truthy, fresh, same netloc as `start_url`). -/
def recProcessAnchor (cap : Nat) (s : RecState) (a : Anchor) : RecState :=
  if extract_url a ≠ "" then
    let url := extract_url a
    if url ≠ "" ∧ url ∉ s.urls ∧ s.urls.length < cap then
      { s with urls := s.urls ++ [url] }
    else s
  else
    match a.href with
    | some href =>
      if href ≠ "" ∧ href ∉ s.visited_urls ∧
          urlparseNetlocS href = urlparseNetlocS s.start_url then
        { s with visited_urls := s.visited_urls ++ [href] }
      else s
    | none => s

/-- One page scan of the recursive crawler: `start_url` is first set to the
current page (the assignment is the identity when the cursor is zero), then
every anchor of the page is processed in order. -/
def recScan (cap : Nat) (fetch : String → List Anchor) (s : RecState)
    (cur : String) : RecState :=
  (fetch cur).foldl (recProcessAnchor cap) { s with start_url := cur }

/-- Observable events of a recursive crawl: a page scan, and a state dump
(`save_crawler_data`, which serializes the complete crawler state). -/
inductive Ev where
  | scan (url : String)
  | save (st : RecState)
deriving DecidableEq, Repr

/-- How a recursive crawl run ends short of its target: the recursion
budget ran out, or the cursor indexed past `visited_urls` (IndexError). -/
inductive RunHalt where
  | fuelOut
  | indexError
deriving DecidableEq, Repr

/-- Executable trace semantics of `CrawlerRecursive.find_articles`.
Mode `true` is the body of `find_articles` (pick the current page, scan it,
then fall into the while loop); mode `false` is the `while` loop (below the
target: advance the cursor, save, recurse, re-check).  The fuel bounds the
recursion depth; the event list records scans and saves in program order. -/
def runMode (cap : Nat) (fetch : String → List Anchor) :
    Nat → Bool → RecState → List Ev × Except RunHalt RecState
  | 0, _, _ => ([], .error .fuelOut)
  | Nat.succ fuel, true, s =>
    match recCurrent s with
    | none => ([], .error .indexError)
    | some cur =>
      let s2 := recScan cap fetch s cur
      let r := runMode cap fetch fuel false s2
      (Ev.scan cur :: r.1, r.2)
  | Nat.succ fuel, false, s =>
    if s.urls.length < cap then
      let s1 := { s with num_visited_urls := s.num_visited_urls + 1 }
      match runMode cap fetch fuel true s1 with
      | (evs, .error h) => (Ev.save s1 :: evs, .error h)
      | (evs, .ok s2) =>
        let r2 := runMode cap fetch fuel false s2
        (Ev.save s1 :: (evs ++ r2.1), r2.2)
    else ([], .ok s)

/-- A full run of `CrawlerRecursive.find_articles` from a given state. -/
def find_articles_rec (cap : Nat) (fetch : String → List Anchor)
    (fuel : Nat) (s : RecState) : List Ev × Except RunHalt RecState :=
  runMode cap fetch fuel true s

/-! ## Article parser model (`HTMLParser`) -/

/-- Python exceptions the scraper can raise, by kind. -/
inductive PyErr where
  | attributeError
  | valueError
  | keyError
  | typeError
deriving DecidableEq, Repr

/-- An article page as `HTMLParser` queries it: the text of the
`h1.article__h1` node when present, the list of paragraph texts of the
`div.articleBody` container when present, the `content` attribute of the
`div.article-copyright__author` node when present, the `datetime`
attribute of the `time.article__date` node when present, and all anchors
carrying an `href` attribute paired with their optional `title`. -/
structure ArticlePage where
  titleText : Option String
  bodyParagraphs : Option (List String)
  authorContent : Option (Option String)
  dateAttr : Option (Option String)
  hrefAnchors : List (String × Option String)
deriving DecidableEq, Repr

/-- A parsed timestamp, `datetime.datetime` restricted to the fields the
fixed format can produce. -/
structure DateTimeRec where
  year : Nat
  month : Nat
  day : Nat
  hour : Nat
  minute : Nat
  second : Nat
deriving DecidableEq, Repr

/-- The extracted article record. -/
structure ArticleRecord where
  title : String
  text : String
  author : List String
  date : Option DateTimeRec
  topics : List String
deriving DecidableEq, Repr

/-- Python `'. '.join(s)` applied to a string: the characters of `s`
interleaved with the two-character separator. -/
def sepJoinChars : List Char → List Char
  | [] => []
  | [c] => [c]
  | c :: rest => c :: '.' :: ' ' :: sepJoinChars rest

/-- `HTMLParser._fill_article_with_text`: the title text is required, the
body container is required; the paragraph texts are first concatenated with
the empty separator, and the resulting string is then joined character by
character with the two-character separator. -/
def fill_article_with_text (p : ArticlePage) : Except PyErr (String × String) :=
  match p.titleText with
  | none => .error .attributeError
  | some t =>
    match p.bodyParagraphs with
    | none => .error .attributeError
    | some ps =>
      let paragraphs := String.join ps
      .ok (t, String.mk (sepJoinChars paragraphs.data))

/-- Python `date.replace("MSK", " ")`: every occurrence of the marker is
replaced by a single space. -/
def replaceMSK : List Char → List Char
  | 'M' :: 'S' :: 'K' :: rest => ' ' :: replaceMSK rest
  | c :: rest => c :: replaceMSK rest
  | [] => []

/-- The date transformation applied before parsing:
`date.replace("MSK", " ") + ":00"`. -/
def transform_date (d : String) : String :=
  String.mk (replaceMSK d.data) ++ ":00"

/-- Numeric value of a digit character. -/
def digitVal (c : Char) : Nat := c.toNat - 48

/-- Candidates for `%m` in CPython alternation order:
two-digit 10 to 12, two-digit 01 to 09, then a single digit 1 to 9. -/
def candsMonth : List Char → List (Nat × List Char)
  | a :: b :: rest =>
    (if a = '1' ∧ '0' ≤ b ∧ b ≤ '2' then [(10 + digitVal b, rest)] else [])
    ++ (if a = '0' ∧ '1' ≤ b ∧ b ≤ '9' then [(digitVal b, rest)] else [])
    ++ (if '1' ≤ a ∧ a ≤ '9' then [(digitVal a, b :: rest)] else [])
  | [a] => if '1' ≤ a ∧ a ≤ '9' then [(digitVal a, [])] else []
  | [] => []

/-- Candidates for `%d`: 30 to 31, 10 to 29, 01 to 09, single 1 to 9. -/
def candsDay : List Char → List (Nat × List Char)
  | a :: b :: rest =>
    (if a = '3' ∧ '0' ≤ b ∧ b ≤ '1' then [(30 + digitVal b, rest)] else [])
    ++ (if ('1' ≤ a ∧ a ≤ '2') ∧ b.isDigit then
          [(10 * digitVal a + digitVal b, rest)] else [])
    ++ (if a = '0' ∧ '1' ≤ b ∧ b ≤ '9' then [(digitVal b, rest)] else [])
    ++ (if '1' ≤ a ∧ a ≤ '9' then [(digitVal a, b :: rest)] else [])
  | [a] => if '1' ≤ a ∧ a ≤ '9' then [(digitVal a, [])] else []
  | [] => []

/-- Candidates for `%H`: 20 to 23, 00 to 19, then any single digit. -/
def candsHour : List Char → List (Nat × List Char)
  | a :: b :: rest =>
    (if a = '2' ∧ '0' ≤ b ∧ b ≤ '3' then [(20 + digitVal b, rest)] else [])
    ++ (if ('0' ≤ a ∧ a ≤ '1') ∧ b.isDigit then
          [(10 * digitVal a + digitVal b, rest)] else [])
    ++ (if a.isDigit then [(digitVal a, b :: rest)] else [])
  | [a] => if a.isDigit then [(digitVal a, [])] else []
  | [] => []

/-- Candidates for `%M`: 00 to 59, then any single digit. -/
def candsMin : List Char → List (Nat × List Char)
  | a :: b :: rest =>
    (if ('0' ≤ a ∧ a ≤ '5') ∧ b.isDigit then
      [(10 * digitVal a + digitVal b, rest)] else [])
    ++ (if a.isDigit then [(digitVal a, b :: rest)] else [])
  | [a] => if a.isDigit then [(digitVal a, [])] else []
  | [] => []

/-- Candidates for `%S`: 60 to 61, 00 to 59, then any single digit. -/
def candsSec : List Char → List (Nat × List Char)
  | a :: b :: rest =>
    (if a = '6' ∧ '0' ≤ b ∧ b ≤ '1' then [(60 + digitVal b, rest)] else [])
    ++ (if ('0' ≤ a ∧ a ≤ '5') ∧ b.isDigit then
          [(10 * digitVal a + digitVal b, rest)] else [])
    ++ (if a.isDigit then [(digitVal a, b :: rest)] else [])
  | [a] => if a.isDigit then [(digitVal a, [])] else []
  | [] => []

/-- Days in a month under the Gregorian leap rule. -/
def daysInMonth (y m : Nat) : Nat :=
  if m = 2 then
    (if y % 4 = 0 ∧ (y % 100 ≠ 0 ∨ y % 400 = 0) then 29 else 28)
  else if m = 4 ∨ m = 6 ∨ m = 9 ∨ m = 11 then 30
  else 31

/-- `datetime` constructor validation for a regex-accepted field tuple:
the year must be at least MINYEAR, the day must fit the month, and the
second must be at most 59. -/
def mkDateTime (y m d h mi s : Nat) : Option DateTimeRec :=
  if 1 ≤ y ∧ d ≤ daysInMonth y m ∧ s ≤ 59 then some ⟨y, m, d, h, mi, s⟩
  else none

/-- Model of `datetime.strptime(s, '%Y-%m-%d %H:%M:%S')`: CPython compiles
the format to a regex with the alternations above, requires the whole
string to be consumed, and then validates the fields through the
`datetime` constructor. -/
def strptimeYmdHMS (s : String) : Option DateTimeRec :=
  match s.data with
  | y1 :: y2 :: y3 :: y4 :: '-' :: rest =>
    if y1.isDigit ∧ y2.isDigit ∧ y3.isDigit ∧ y4.isDigit then
      let y := 1000 * digitVal y1 + 100 * digitVal y2 + 10 * digitVal y3
        + digitVal y4
      List.findSome? (fun mc =>
        match mc.2 with
        | '-' :: r2 =>
          List.findSome? (fun dc =>
            match dc.2 with
            | ' ' :: r4 =>
              List.findSome? (fun hc =>
                match hc.2 with
                | ':' :: r6 =>
                  List.findSome? (fun nc =>
                    match nc.2 with
                    | ':' :: r8 =>
                      List.findSome? (fun sc =>
                        if sc.2 = [] then
                          mkDateTime y mc.1 dc.1 hc.1 nc.1 sc.1
                        else none) (candsSec r8)
                    | _ => none) (candsMin r6)
                | _ => none) (candsHour r4)
            | _ => none) (candsDay r2)
        | _ => none) (candsMonth rest)
    else none
  | _ => none

/-- `HTMLParser.unify_date_format`: `none` models the ValueError
`strptime` raises on a non-matching input. -/
def unify_date_format (s : String) : Option DateTimeRec :=
  strptimeYmdHMS s

/-- `HTMLParser._fill_article_with_meta_information`, applied after the
text fill: the author node is required (its `content` attribute is not —
a missing or empty attribute becomes the NOT FOUND sentinel), the date
node is required (its attribute is not; a truthy attribute must parse
after the MSK transformation or a ValueError propagates), the title node
is required again, and every `/category/`-href anchor with a truthy
`title` contributes a topic in document order. -/
def fill_article_with_meta (p : ArticlePage) (tt : String × String) :
    Except PyErr ArticleRecord :=
  match p.authorContent with
  | none => .error .attributeError
  | some contentAttr =>
    let author := match contentAttr with
      | some c => if c ≠ "" then [c] else ["NOT FOUND"]
      | none => ["NOT FOUND"]
    match p.dateAttr with
    | none => .error .attributeError
    | some dAttr =>
      let dateRes : Except PyErr (Option DateTimeRec) :=
        match dAttr with
        | some d =>
          if d ≠ "" then
            match unify_date_format (transform_date d) with
            | some dt => .ok (some dt)
            | none => .error .valueError
          else .ok none
        | none => .ok none
      match dateRes with
      | .error e => .error e
      | .ok dval =>
        match p.titleText with
        | none => .error .attributeError
        | some t =>
          let topics := p.hrefAnchors.foldl (fun acc an =>
            if an.1.startsWith "/category/" then
              match an.2 with
              | some tg => if tg ≠ "" then acc ++ [tg] else acc
              | none => acc
            else acc) []
          .ok ⟨t, tt.2, author, dval, topics⟩

/-- `HTMLParser.parse` on an already-fetched page: fill the text, then the
meta information. -/
def html_parse (p : ArticlePage) : Except PyErr ArticleRecord :=
  match fill_article_with_text p with
  | .error e => .error e
  | .ok tt => fill_article_with_meta p tt


/-! ## Persisted crawl state loader (`CrawlerRecursive.load_crawler_data`) -/

/-- A JSON value, as `json.load` produces it. -/
inductive Json where
  | null
  | bool (b : Bool)
  | num (n : Int)
  | str (s : String)
  | arr (l : List Json)
  | obj (fields : List (String × Json))

/-- Python subscript `data[key]`: a KeyError on a dict without the key, a
TypeError on any non-dict value. -/
def objGet (j : Json) (key : String) : Except PyErr Json :=
  match j with
  | .obj fields =>
    match fields.find? (fun p => p.1 == key) with
    | some p => .ok p.2
    | none => .error .keyError
  | _ => .error .typeError

/-- The four attributes `load_crawler_data` assigns, kept as raw JSON
values since Python assigns whatever the file held. -/
structure RawCrawlData where
  num_visited_urls : Json
  start_url : Json
  urls : Json
  visited_urls : Json

/-- `CrawlerRecursive.load_crawler_data` against file contents: `none` is
an absent file, `some none` a file whose JSON parse fails (the caught
JSONDecodeError), `some (some j)` a successfully parsed value.  The four
subscripts run in program order, so a failure leaves the earlier fields
already reassigned; the second component is the escaping exception. -/
def load_crawler_data (d : RawCrawlData) (file : Option (Option Json)) :
    RawCrawlData × Option PyErr :=
  match file with
  | none => (d, none)
  | some none => (d, none)
  | some (some j) =>
    match objGet j "num_visited_urls" with
    | .error e => (d, some e)
    | .ok a =>
      match objGet j "start_url" with
      | .error e => ({ d with num_visited_urls := a }, some e)
      | .ok b =>
        match objGet j "urls" with
        | .error e => ({ d with num_visited_urls := a, start_url := b },
            some e)
        | .ok c =>
          match objGet j "visited_urls" with
          | .error e =>
            ({ d with num_visited_urls := a, start_url := b, urls := c },
             some e)
          | .ok e2 => (⟨a, b, c, e2⟩, none)

/-- Whether a parsed JSON value supplies all four state keys, so that the
loader finishes without an exception. -/
def wellKeyed (j : Json) : Bool :=
  (match objGet j "num_visited_urls" with | .ok _ => true | .error _ => false)
  && (match objGet j "start_url" with | .ok _ => true | .error _ => false)
  && (match objGet j "urls" with | .ok _ => true | .error _ => false)
  && (match objGet j "visited_urls" with | .ok _ => true | .error _ => false)

/-! ## Config validation (`Config._validate_config_content`) -/

/-- A Python value of the shapes a parsed scraper config can hold. -/
inductive PyVal where
  | none
  | int (n : Int)
  | bool (b : Bool)
  | str (s : String)
  | list (l : List PyVal)
  | dict (fields : List (String × PyVal))

/-- Python `isinstance(v, int)`; a `bool` is an `int` in Python. -/
def isinstInt : PyVal → Bool
  | .int _ => true
  | .bool _ => true
  | _ => false

/-- Python `isinstance(v, bool)`. -/
def isinstBool : PyVal → Bool
  | .bool _ => true
  | _ => false

/-- Python `isinstance(v, str)`. -/
def isinstStr : PyVal → Bool
  | .str _ => true
  | _ => false

/-- Python `isinstance(v, dict)`. -/
def isinstDict : PyVal → Bool
  | .dict _ => true
  | _ => false

/-- The integer a Python int-like value compares as (bools are 0 or 1);
only consulted after an `isinstance(v, int)` guard. -/
def pyIntVal : PyVal → Int
  | .int n => n
  | .bool b => if b then 1 else 0
  | _ => 0

/-- The exceptions `_validate_config_content` can raise, plus the
TypeError `re.match` raises on a non-string seed. -/
inductive ConfigError where
  | incorrectSeedURL
  | numberOfArticlesOutOfRange
  | incorrectNumberOfArticles
  | incorrectHeaders
  | incorrectEncoding
  | incorrectTimeout
  | incorrectVerify
  | seedTypeError
deriving DecidableEq, Repr

/-- Modelled from the spec: `NUM_ARTICLES_UPPER_LIMIT` lives in
`core_utils.constants`, outside the scraper module; the spec and the
exception docstrings give the target-count range as 1 to 150. -/
def NUM_ARTICLES_UPPER_LIMIT : Int := 150

/-- The configuration object handed to validation, each field still a raw
Python value. -/
structure ConfigDTO where
  seed_urls : PyVal
  total_articles : PyVal
  headers : PyVal
  encoding : PyVal
  timeout : PyVal
  should_verify_certificate : PyVal
  headless_mode : PyVal

/-- `re.match(r'^https?://.*', s)` succeeds exactly on strings starting
with `http://` or `https://`. -/
def seedMatches (s : String) : Bool :=
  "http://".data.isPrefixOf s.data || "https://".data.isPrefixOf s.data

/-- One seed check: non-strings make `re.match` raise a TypeError,
non-matching strings raise IncorrectSeedURLError. -/
def checkSeed (v : PyVal) : Except ConfigError Unit :=
  match v with
  | .str s => if seedMatches s then .ok () else .error .incorrectSeedURL
  | _ => .error .seedTypeError

/-- The seed-URL loop of validation. -/
def checkSeeds : List PyVal → Except ConfigError Unit
  | [] => .ok ()
  | v :: rest =>
    match checkSeed v with
    | .error e => .error e
    | .ok _ => checkSeeds rest

/-- The seed part of `_validate_config_content`: the value must be a list
and every member must match the seed pattern. -/
def validateSeeds (v : PyVal) : Except ConfigError Unit :=
  match v with
  | .list seeds => checkSeeds seeds
  | _ => .error .incorrectSeedURL

/-- `Config._validate_config_content`, in source order: seeds, the
article-count type and sign check, the upper-limit check, headers,
encoding, timeout, and the two certificate flags. -/
def validate_config_content (c : ConfigDTO) : Except ConfigError Unit :=
  match validateSeeds c.seed_urls with
  | .error e => .error e
  | .ok _ =>
    if ¬ isinstInt c.total_articles = true ∨ isinstBool c.total_articles = true
        ∨ pyIntVal c.total_articles < 0 then
      .error .incorrectNumberOfArticles
    else if pyIntVal c.total_articles > NUM_ARTICLES_UPPER_LIMIT then
      .error .numberOfArticlesOutOfRange
    else if ¬ isinstDict c.headers = true then .error .incorrectHeaders
    else if ¬ isinstStr c.encoding = true then .error .incorrectEncoding
    else if ¬ isinstInt c.timeout = true ∨ pyIntVal c.timeout < 0
        ∨ pyIntVal c.timeout > 60 then .error .incorrectTimeout
    else if ¬ isinstBool c.should_verify_certificate = true
        ∨ ¬ isinstBool c.headless_mode = true then .error .incorrectVerify
    else .ok ()

/-! ## Spec-side and invariant definitions used by the claim statements -/

/-- The body text the spec describes: the paragraph texts joined by the
two-character separator. -/
def specBodyJoin (ps : List String) : String :=
  String.intercalate ". " ps

/-- The invariant claimed for the discovered-URL list: no duplicates and
never longer than the configured target count. -/
def urlsInv (cap : Nat) (l : List String) : Prop :=
  l.Nodup ∧ l.length ≤ cap

/-- The persistence discipline on crawl traces: any event immediately
followed by a page scan is a save of the complete state, and the scanned
page is the current page of that saved state. -/
def savedBeforeScan (e f : Ev) : Prop :=
  ∀ u, f = Ev.scan u → ∃ st, e = Ev.save st ∧ recCurrent st = some u

/-! ## Lemmas about the URL model -/

/-- A URL of the shape `https:...` always reports the scheme `https`. -/
theorem schemeSplit_https (t : List Char) :
    schemeSplit ("https".data ++ ':' :: t) = some ("https".data, t) := rfl

/-- An explicitly parsed scheme is never the empty string. -/
theorem schemeSplit_ne_nil {url s r : List Char}
    (h : schemeSplit url = some (s, r)) : s ≠ [] := by
  unfold schemeSplit at h
  cases hsp : splitAtColon url with
  | none => simp only [hsp] at h; exact absurd h (by simp)
  | some pr =>
    obtain ⟨pre, post⟩ := pr
    simp only [hsp] at h
    by_cases hv : validSchemePre pre = true
    · rw [if_pos hv] at h
      have h1 : pre.map Char.toLower = s := by
        simpa using congrArg (fun o => (Option.map Prod.fst o).getD [])
          h
      rw [← h1]
      cases pre with
      | nil => simp [validSchemePre] at hv
      | cons c cs => simp
    · rw [if_neg hv] at h
      exact absurd h (by simp)

/-- The scheme reported by `urlsplit` is the explicit one when present,
else the supplied default. -/
theorem urlsplitL_scheme (url d : List Char) :
    (urlsplitL url d).scheme =
      match schemeSplit url with
      | some (s, _) => s
      | none => d := by
  unfold urlsplitL
  cases h : schemeSplit url with
  | none => rfl
  | some pr => obtain ⟨s, r⟩ := pr; rfl

/-- `urlunsplit` with the `https` scheme yields a URL whose parsed scheme
is again `https`. -/
theorem schemeOf_urlunsplit_https (n p q f : List Char) :
    schemeOfL (urlunsplitL ⟨"https".data, n, p, q, f⟩) = "https".data := rfl

/-- Every branch of the joined-scheme case of `urljoin` keeps the `https`
scheme visible in the result. -/
theorem schemeOf_urljoinRest (b u : SplitUrl) (hu : u.scheme = "https".data) :
    schemeOfL (urljoinRest b u) = "https".data := by
  obtain ⟨s, n, p, q, f⟩ := u
  simp only at hu
  subst hu
  simp only [urljoinRest]
  split_ifs <;> exact schemeOf_urlunsplit_https ..

/-- Unfolding `urljoin` past its two emptiness guards. -/
theorem urljoinL_eq (base url : List Char) (h1 : ¬ base = [])
    (h2 : ¬ url = []) :
    urljoinL base url =
      if (urlsplitL url (urlsplitL base []).scheme).scheme
            ≠ (urlsplitL base []).scheme
          ∨ (urlsplitL url (urlsplitL base []).scheme).scheme ∉ usesRelative
      then url
      else urljoinRest (urlsplitL base [])
        (urlsplitL url (urlsplitL base []).scheme) := by
  unfold urljoinL
  rw [if_neg h1, if_neg h2]

/-- The components `urlsplit` extracts from the fixed base. -/
theorem urlsplit_gazetaBase :
    urlsplitL gazetaBase.data [] =
      ⟨"https".data, "www.business-gazeta.ru".data, "/".data, [], []⟩ := by
  decide

/-- Joining any truthy href against the fixed `https` base produces a URL
whose parsed scheme is nonempty: either the href's own explicit scheme, or
`https` inherited from the base. -/
theorem schemeOf_urljoin_base_ne_nil (h : List Char) (hne : h ≠ []) :
    schemeOfL (urljoinL gazetaBase.data h) ≠ [] := by
  have hbne : ¬ gazetaBase.data = [] := by decide
  rw [urljoinL_eq gazetaBase.data h hbne hne]
  rw [urlsplit_gazetaBase]
  by_cases hcond : (urlsplitL h "https".data).scheme ≠ "https".data
      ∨ (urlsplitL h "https".data).scheme ∉ usesRelative
  · rw [if_pos hcond]
    have hs := urlsplitL_scheme h "https".data
    cases hsp : schemeSplit h with
    | none =>
      simp only [hsp] at hs
      exact absurd hcond (by rw [hs]; decide)
    | some pr =>
      obtain ⟨s, r⟩ := pr
      have hsv : schemeOfL h = s := by
        unfold schemeOfL
        rw [urlsplitL_scheme h []]
        simp only [hsp]
      rw [hsv]
      exact schemeSplit_ne_nil hsp
  · rw [if_neg hcond]
    push_neg at hcond
    rw [schemeOf_urljoinRest _ _ hcond.1]
    decide

/-- A string is empty exactly when its character list is. -/
theorem string_eq_empty_iff (s : String) : s = "" ↔ s.data = [] := by
  constructor
  · intro h; rw [h]
  · intro h; apply String.ext; rw [h]

/-- For a truthy href the joined URL already carries a scheme, so the
`http://` fallback branch of `_extract_url` never fires and the resolver
returns the plain `urljoin` result. -/
theorem extract_url_no_fallback (h : String) (hne : h ≠ "")
    (cls : List String) :
    urlparseSchemeS (urljoinS gazetaBase h) ≠ "" ∧
      extract_url ⟨some h, cls⟩ = urljoinS gazetaBase h := by
  have hd : h.data ≠ [] := fun hl => hne ((string_eq_empty_iff h).mpr hl)
  have hs : schemeOfL (urljoinL gazetaBase.data h.data) ≠ [] :=
    schemeOf_urljoin_base_ne_nil h.data hd
  have hS : urlparseSchemeS (urljoinS gazetaBase h) ≠ "" := by
    intro hcon
    exact hs ((string_eq_empty_iff _).mp hcon)
  refine ⟨hS, ?_⟩
  have hred : extract_url ⟨some h, cls⟩ =
      if urlparseSchemeS (urljoinS gazetaBase h) = "" then
        "http://" ++ urljoinS gazetaBase h
      else urljoinS gazetaBase h := by
    show (if h ≠ "" then
        if urlparseSchemeS (urljoinS gazetaBase h) = "" then
          "http://" ++ urljoinS gazetaBase h
        else urljoinS gazetaBase h
      else "") = _
    rw [if_pos hne]
  rw [hred, if_neg hS]

/-- A truthy href never resolves to the empty string. -/
theorem extract_url_ne_empty (h : String) (hne : h ≠ "")
    (cls : List String) : extract_url ⟨some h, cls⟩ ≠ "" := by
  have hmain := (extract_url_no_fallback h hne cls).2
  rw [hmain]
  intro hcon
  have hd : h.data ≠ [] := fun hl => hne ((string_eq_empty_iff h).mpr hl)
  have hs := schemeOf_urljoin_base_ne_nil h.data hd
  have : urljoinL gazetaBase.data h.data = [] :=
    (string_eq_empty_iff _).mp hcon
  rw [this] at hs
  exact hs rfl

/-- Resolution fails (returns the empty string) exactly when the anchor's
href attribute is absent or empty. -/
theorem extract_url_empty_iff (a : Anchor) :
    extract_url a = "" ↔ (a.href = none ∨ a.href = some "") := by
  obtain ⟨href, cls⟩ := a
  cases href with
  | none => simp [extract_url]
  | some h =>
    by_cases hne : h = ""
    · subst hne; simp [extract_url]
    · simp only [extract_url]
      rw [if_pos hne]
      constructor
      · intro hcon
        exact absurd hcon (by
          have := extract_url_ne_empty h hne cls
          simpa [extract_url, if_pos hne] using this)
      · intro hcon
        rcases hcon with hcon | hcon
        · exact absurd hcon (by simp)
        · exact absurd hcon (by simp [hne])

/-! ## Claim C8 — LinkExtractor resolution -/

/-- C8 counterexample: the claim's instance fails — an href with no scheme
and no leading slash resolves under the base's secure `https` scheme, not
the unsecured `http` fallback the claim asserts. -/
theorem extract_url_bare_href_counterexample :
    extract_url ⟨some "foo", []⟩ = "https://www.business-gazeta.ru/foo" ∧
      urlparseSchemeS (extract_url ⟨some "foo", []⟩) = "https" ∧
      ("https" : String) ≠ "http" := by
  refine ⟨by decide, by decide, by decide⟩

/-- C8 (amended): `_extract_url` returns the empty string when the href is
absent; a relative href such as `/news/123` resolves to an absolute URL
with the `https` scheme and the same path; and for every truthy href the
joined URL already has a nonempty scheme, so the `http://` fallback never
fires and the resolver returns the plain `urljoin` result. -/
theorem extract_url_resolution :
    extract_url ⟨none, []⟩ = "" ∧
      (urlparseSchemeS (extract_url ⟨some "/news/123", []⟩) = "https" ∧
       urlparsePathS (extract_url ⟨some "/news/123", []⟩) = "/news/123") ∧
      (∀ (h : String) (cls : List String), h ≠ "" →
        urlparseSchemeS (urljoinS gazetaBase h) ≠ "" ∧
          extract_url ⟨some h, cls⟩ = urljoinS gazetaBase h) := by
  refine ⟨rfl, ⟨by decide, by decide⟩, ?_⟩
  intro h cls hne
  exact extract_url_no_fallback h hne cls

/-- C8 witness: the general no-fallback clause applied to the bare href. -/
theorem extract_url_resolution_witness :
    urlparseSchemeS (urljoinS gazetaBase "foo") ≠ "" ∧
      extract_url ⟨some "foo", []⟩ = urljoinS gazetaBase "foo" :=
  extract_url_resolution.2.2 "foo" [] (by decide)

/-! ## Claim C2 — the same-origin listing fallback of the recursive step -/

/-- C2: for an anchor whose resolution fails, the recursive step appends
the raw href to `visited_urls` exactly when it is truthy, not yet
present, and of the same netloc as the current `start_url`.  (Resolution
fails only for an absent or empty href, so the appending side of the
equivalence never actually fires.) -/
theorem recursive_fallback_listing_append (cap : Nat) (s : RecState)
    (a : Anchor) (hfail : extract_url a = "") :
    (recProcessAnchor cap s a).visited_urls
        = s.visited_urls ++ [a.href.getD ""] ↔
      (a.href.getD "" ≠ "" ∧ a.href.getD "" ∉ s.visited_urls ∧
       urlparseNetlocS (a.href.getD "")
         = urlparseNetlocS s.start_url) := by
  have hcase := (extract_url_empty_iff a).mp hfail
  obtain ⟨href, cls⟩ := a
  simp only at hcase
  rcases hcase with h1 | h1 <;> subst h1 <;>
    simp [recProcessAnchor, extract_url]

/-- C2 witness: the equivalence at an anchor with no href at all. -/
theorem recursive_fallback_listing_append_witness :
    (recProcessAnchor 5 ⟨[], [], 0, gazetaBase⟩ ⟨none, []⟩).visited_urls
        = [] ++ [(Anchor.mk none []).href.getD ""] ↔
      ((Anchor.mk none []).href.getD "" ≠ "" ∧
       (Anchor.mk none []).href.getD "" ∉ ([] : List String) ∧
       urlparseNetlocS ((Anchor.mk none []).href.getD "")
         = urlparseNetlocS gazetaBase) :=
  recursive_fallback_listing_append 5 ⟨[], [], 0, gazetaBase⟩ ⟨none, []⟩ rfl

/-! ## Claim C3 — the cursor guard of the recursive step -/

/-- C3: the code has no guard — from a fresh state, one expansion step of a
page with no anchors advances the cursor to 1 with `visited_urls` still
empty, saves that state, and the next step's index access
`visited_urls[cursor - 1]` fails (IndexError), instead of falling back to
the start URL. -/
theorem recursive_cursor_no_guard :
    find_articles_rec 1 (fun _ => []) 3 ⟨[], [], 0, gazetaBase⟩
        = ([Ev.scan gazetaBase, Ev.save ⟨[], [], 1, gazetaBase⟩],
           .error .indexError) ∧
      recCurrent ⟨[], [], 1, gazetaBase⟩ = none ∧
      (recCurrent ⟨[], [], 0, gazetaBase⟩ = some gazetaBase ∧
       recCurrent ⟨[], ["l1", "l2"], 2, gazetaBase⟩ = some "l2") := by
  refine ⟨rfl, rfl, rfl, rfl⟩

/-! ## Claim C5 — body text assembly -/

/-- C5: the code joins the CHARACTERS of the concatenated paragraph texts
with the two-character separator, not the paragraph texts themselves: on
paragraphs `ab` and `cd` it produces `a. b. c. d` where the claim expects
`ab. cd`. -/
theorem body_text_chars_joined :
    fill_article_with_text ⟨some "T", some ["ab", "cd"], none, none, []⟩
        = .ok ("T", "a. b. c. d") ∧
      specBodyJoin ["ab", "cd"] = "ab. cd" ∧
      ("a. b. c. d" : String) ≠ "ab. cd" := by
  refine ⟨rfl, rfl, by decide⟩

/-! ## Claim C6 — required and optional article fields -/

/-- C6 counterexample: on the claim's minimal page, with only the title
and the body container present, extraction does not succeed with the
NOT FOUND author — it fails, because the absent author node makes the
attribute read blow up. -/
theorem parse_minimal_page_counterexample :
    html_parse ⟨some "T", some ["B"], none, none, []⟩
      = .error .attributeError := rfl

/-- C6 (amended): extraction fails whenever the title node, the body
container, the author node, or the date node cannot be located; a page
with title and body plus attribute-less author and date nodes succeeds
with author NOT FOUND, no topics, and no date. -/
theorem parse_required_nodes :
    (∀ p : ArticlePage,
      p.titleText = none ∨ p.bodyParagraphs = none ∨
        p.authorContent = none ∨ p.dateAttr = none →
      html_parse p = .error .attributeError) ∧
    html_parse ⟨some "T", some ["B"], some none, some none, []⟩
      = .ok ⟨"T", "B", ["NOT FOUND"], none, []⟩ := by
  constructor
  · intro p hmiss
    obtain ⟨t, b, a, d, an⟩ := p
    simp only at hmiss
    rcases t with _ | t
    · rfl
    rcases b with _ | b
    · rfl
    rcases a with _ | a
    · simp [html_parse, fill_article_with_text, fill_article_with_meta]
    rcases d with _ | d
    · simp [html_parse, fill_article_with_text, fill_article_with_meta]
    · simp at hmiss
  · rfl

/-- C6 witness: the missing-node clause applied to a page without a body
container. -/
theorem parse_required_nodes_witness :
    html_parse ⟨some "T", none, some none, some none, []⟩
      = .error .attributeError :=
  parse_required_nodes.1 ⟨some "T", none, some none, some none, []⟩
    (Or.inr (Or.inl rfl))

/-! ## Claim C7 — date transformation and parsing -/

/-- C7 counterexample: the code replaces `MSK` with a space rather than
stripping it, and on the claim's example input the transformed string does
not match the fixed format, so parsing fails instead of producing the
claimed timestamp. -/
theorem date_example_fails_counterexample :
    transform_date "2023-05-01T10:00MSK" = "2023-05-01T10:00 :00" ∧
      unify_date_format (transform_date "2023-05-01T10:00MSK") = none := by
  refine ⟨rfl, by decide⟩

/-- C7 (amended): the transformation replaces every `MSK` by a space and
appends seconds; the claim's example therefore fails to parse; an
attribute already shaped `YYYY-MM-DD HH:MM` parses to the expected
timestamp; and a present, truthy attribute whose transformed form does
not match the format makes the meta fill raise (ValueError), never
silently skip. -/
theorem date_transform_and_parse :
    transform_date "2023-05-01 10:00" = "2023-05-01 10:00:00" ∧
      unify_date_format (transform_date "2023-05-01 10:00")
        = some ⟨2023, 5, 1, 10, 0, 0⟩ ∧
      (∀ (p : ArticlePage) (tt : String × String) (d : String),
        p.authorContent ≠ none → p.dateAttr = some (some d) → d ≠ "" →
        unify_date_format (transform_date d) = none →
        fill_article_with_meta p tt = .error .valueError) := by
  refine ⟨rfl, by decide, ?_⟩
  intro p tt d hauth hdate hne hparse
  obtain ⟨t, b, a, dd, an⟩ := p
  simp only at hauth hdate
  subst hdate
  rcases a with _ | a
  · exact absurd rfl hauth
  · simp [fill_article_with_meta, hne, hparse]

/-- C7 witness: the hard-error clause applied to the claim's example
attribute on an otherwise complete page. -/
theorem date_transform_and_parse_witness :
    fill_article_with_meta
        ⟨some "T", some ["B"], some none,
         some (some "2023-05-01T10:00MSK"), []⟩ ("T", "B")
      = .error .valueError :=
  date_transform_and_parse.2.2
    ⟨some "T", some ["B"], some none,
     some (some "2023-05-01T10:00MSK"), []⟩ ("T", "B")
    "2023-05-01T10:00MSK" (by simp) rfl (by decide) (by decide)

/-! ## Claim C1 — no duplicates, never past the target count -/

/-- The anchor loop of the non-recursive crawler preserves the
discovered-URL invariant. -/
theorem crawlPage_urlsInv (cap : Nat) (anchors : List Anchor) :
    ∀ urls : List String, urlsInv cap urls →
      urlsInv cap (crawlPage cap urls anchors).1 := by
  induction anchors with
  | nil => intro urls h; simpa [crawlPage] using h
  | cons a rest ih =>
    intro urls h
    by_cases hc : cap ≤ urls.length
    · simp only [crawlPage, if_pos hc]; exact h
    · by_cases hskip : extract_url a = "" ∨ extract_url a ∈ urls
      · simp only [crawlPage, if_neg hc, if_pos hskip]
        exact ih urls h
      · simp only [crawlPage, if_neg hc, if_neg hskip]
        push_neg at hskip
        refine ih _ ⟨?_, ?_⟩
        · exact h.1.append (List.nodup_singleton _)
            (fun x hx hy => by
              rw [List.mem_singleton] at hy
              exact hskip.2 (hy ▸ hx))
        · simp only [List.length_append, List.length_singleton]
          omega

/-- The non-recursive crawl preserves the discovered-URL invariant. -/
theorem find_articles_urlsInv (cap : Nat) (fetch : String → List Anchor)
    (seeds : List String) :
    ∀ urls : List String, urlsInv cap urls →
      urlsInv cap (find_articles cap fetch urls seeds) := by
  induction seeds with
  | nil => intro urls h; simpa [find_articles] using h
  | cons seed seeds ih =>
    intro urls h
    have hstep := crawlPage_urlsInv cap
      ((fetch seed).filter (fun a => articleClass ∈ a.classes)) urls h
    by_cases hret : (crawlPage cap urls
        ((fetch seed).filter (fun a => articleClass ∈ a.classes))).2
    · simp only [find_articles, hret, if_pos]
      exact hstep
    · simp only [find_articles, hret, if_neg, Bool.false_eq_true,
        not_false_eq_true]
      exact ih _ hstep

/-- One anchor of the recursive step preserves the discovered-URL
invariant. -/
theorem recProcessAnchor_urlsInv (cap : Nat) (s : RecState) (a : Anchor)
    (h : urlsInv cap s.urls) :
    urlsInv cap (recProcessAnchor cap s a).urls := by
  unfold recProcessAnchor
  by_cases h1 : extract_url a ≠ ""
  · rw [if_pos h1]
    by_cases h2 : extract_url a ≠ "" ∧ extract_url a ∉ s.urls ∧
        s.urls.length < cap
    · rw [if_pos h2]
      refine ⟨?_, ?_⟩
      · exact h.1.append (List.nodup_singleton _)
          (fun x hx hy => by
            rw [List.mem_singleton] at hy
            exact h2.2.1 (hy ▸ hx))
      · simp only [List.length_append, List.length_singleton]
        omega
    · rw [if_neg h2]; exact h
  · rw [if_neg h1]
    cases ha : a.href with
    | none => exact h
    | some href =>
      dsimp only
      split <;> exact h

/-- Folding the recursive per-anchor step over a page preserves the
discovered-URL invariant. -/
theorem foldl_recProcessAnchor_urlsInv (cap : Nat) (l : List Anchor) :
    ∀ s : RecState, urlsInv cap s.urls →
      urlsInv cap (l.foldl (recProcessAnchor cap) s).urls := by
  induction l with
  | nil => intro s h; exact h
  | cons a rest ih =>
    intro s h
    exact ih _ (recProcessAnchor_urlsInv cap s a h)

/-- A page scan of the recursive crawler preserves the discovered-URL
invariant. -/
theorem recScan_urlsInv (cap : Nat) (fetch : String → List Anchor)
    (s : RecState) (cur : String) (h : urlsInv cap s.urls) :
    urlsInv cap (recScan cap fetch s cur).urls := by
  unfold recScan
  exact foldl_recProcessAnchor_urlsInv cap (fetch cur) _ h

/-- Along any recursive crawl, every saved state and any final state keep
the discovered-URL invariant. -/
theorem runMode_urlsInv (cap : Nat) (fetch : String → List Anchor) :
    ∀ (fuel : Nat) (mode : Bool) (s : RecState), urlsInv cap s.urls →
      (∀ st, Ev.save st ∈ (runMode cap fetch fuel mode s).1 →
        urlsInv cap st.urls) ∧
      (∀ s0, (runMode cap fetch fuel mode s).2 = .ok s0 →
        urlsInv cap s0.urls) := by
  intro fuel
  induction fuel with
  | zero => intro mode s h; simp [runMode]
  | succ fuel ih =>
    intro mode s h
    cases mode with
    | true =>
      cases hc : recCurrent s with
      | none => simp [runMode, hc]
      | some cur =>
        have h2 := recScan_urlsInv cap fetch s cur h
        have hrec := ih false (recScan cap fetch s cur) h2
        constructor
        · intro st hst
          simp only [runMode, hc, List.mem_cons] at hst
          rcases hst with hst | hst
          · exact absurd hst (by simp)
          · exact hrec.1 st hst
        · intro s0 hs0
          simp only [runMode, hc] at hs0
          exact hrec.2 s0 hs0
    | false =>
      by_cases hlen : s.urls.length < cap
      · have h1 : urlsInv cap
            (RecState.urls { s with
              num_visited_urls := s.num_visited_urls + 1 }) := h
        cases hrun : runMode cap fetch fuel true
            { s with num_visited_urls := s.num_visited_urls + 1 } with
        | mk evs r =>
          have htrue := ih true
            { s with num_visited_urls := s.num_visited_urls + 1 } h1
          rw [hrun] at htrue
          cases r with
          | error hh =>
            constructor
            · intro st hst
              simp only [runMode, if_pos hlen, hrun, List.mem_cons] at hst
              rcases hst with hst | hst
              · cases hst; exact h
              · exact htrue.1 st hst
            · intro s0 hs0
              simp only [runMode, if_pos hlen, hrun] at hs0
              exact absurd hs0 (by simp)
          | ok s2 =>
            have h2 : urlsInv cap s2.urls := htrue.2 s2 rfl
            have hfalse := ih false s2 h2
            constructor
            · intro st hst
              simp only [runMode, if_pos hlen, hrun, List.mem_cons,
                List.mem_append] at hst
              rcases hst with hst | hst | hst
              · cases hst; exact h
              · exact htrue.1 st hst
              · exact hfalse.1 st hst
            · intro s0 hs0
              simp only [runMode, if_pos hlen, hrun] at hs0
              exact hfalse.2 s0 hs0
      · constructor
        · intro st hst
          simp only [runMode, if_neg hlen] at hst
          exact absurd hst (List.not_mem_nil _)
        · intro s0 hs0
          simp only [runMode, if_neg hlen] at hs0
          cases hs0; exact h

/-- C1: in both modes the discovered-URL list stays duplicate-free and
never longer than the configured target count — for the non-recursive
crawl over any seeds, and for every saved or final state of a recursive
crawl. -/
theorem discovered_urls_invariant :
    (∀ (cap : Nat) (fetch : String → List Anchor)
        (seeds urls : List String), urlsInv cap urls →
      urlsInv cap (find_articles cap fetch urls seeds)) ∧
    (∀ (cap : Nat) (fetch : String → List Anchor) (fuel : Nat)
        (s : RecState), urlsInv cap s.urls →
      (∀ st, Ev.save st ∈ (find_articles_rec cap fetch fuel s).1 →
        urlsInv cap st.urls) ∧
      (∀ s0, (find_articles_rec cap fetch fuel s).2 = .ok s0 →
        urlsInv cap s0.urls)) := by
  constructor
  · intro cap fetch seeds urls h
    exact find_articles_urlsInv cap fetch seeds urls h
  · intro cap fetch fuel s h
    exact runMode_urlsInv cap fetch fuel true s h

/-- C1 witness: the invariant after crawling one concrete seed page
holding three article anchors, two of them duplicates, at target count
two. -/
theorem discovered_urls_invariant_witness :
    urlsInv 2 (find_articles 2
      (fun _ => [⟨some "/news/1", ["article-news__title"]⟩,
                 ⟨some "/news/1", ["article-news__title"]⟩,
                 ⟨some "/news/2", ["article-news__title"]⟩])
      [] ["https://www.business-gazeta.ru/"]) :=
  discovered_urls_invariant.1 2
    (fun _ => [⟨some "/news/1", ["article-news__title"]⟩,
               ⟨some "/news/1", ["article-news__title"]⟩,
               ⟨some "/news/2", ["article-news__title"]⟩])
    ["https://www.business-gazeta.ru/"] []
    ⟨List.nodup_nil, by simp⟩

/-! ## Claim C4 — state persisted before every next expansion step -/

/-- Structure of recursive crawl traces: in body mode the trace is empty
or starts with a scan of the current page; in loop mode it is empty or
starts with a save; and in both modes any event directly followed by a
scan is a save of the complete state whose current page is the scanned
one. -/
theorem runMode_chain (cap : Nat) (fetch : String → List Anchor) :
    ∀ fuel : Nat,
      (∀ s : RecState,
        List.Chain' savedBeforeScan (runMode cap fetch fuel true s).1 ∧
        (∀ e, (runMode cap fetch fuel true s).1.head? = some e →
          ∃ u, e = Ev.scan u ∧ recCurrent s = some u)) ∧
      (∀ s : RecState,
        List.Chain' savedBeforeScan (runMode cap fetch fuel false s).1 ∧
        (∀ e, (runMode cap fetch fuel false s).1.head? = some e →
          ∃ st, e = Ev.save st)) := by
  intro fuel
  induction fuel with
  | zero =>
    constructor <;> intro s <;> constructor <;> simp [runMode]
  | succ fuel ih =>
    constructor
    · intro s
      cases hc : recCurrent s with
      | none => constructor <;> simp [runMode, hc]
      | some cur =>
        have hfalse := ih.2 (recScan cap fetch s cur)
        constructor
        · simp only [runMode, hc]
          rw [List.chain'_cons']
          constructor
          · intro y hy
            rw [Option.mem_def] at hy
            obtain ⟨st, hst⟩ := hfalse.2 y hy
            intro u hu
            rw [hst] at hu
            exact absurd hu (by simp)
          · exact hfalse.1
        · intro e he
          simp only [runMode, hc, List.head?_cons] at he
          exact ⟨cur, (Option.some.inj he).symm, rfl⟩
    · intro s
      by_cases hlen : s.urls.length < cap
      · cases hrun : runMode cap fetch fuel true
            { s with num_visited_urls := s.num_visited_urls + 1 } with
        | mk evs r =>
          have htrue := ih.1
            { s with num_visited_urls := s.num_visited_urls + 1 }
          rw [hrun] at htrue
          have hhead : ∀ y, evs.head? = some y →
              savedBeforeScan
                (Ev.save { s with
                  num_visited_urls := s.num_visited_urls + 1 }) y := by
            intro y hy
            obtain ⟨u, hyu, hcur⟩ := htrue.2 y hy
            intro u' hu'
            rw [hyu] at hu'
            exact ⟨_, rfl, (Ev.scan.inj hu') ▸ hcur⟩
          cases r with
          | error hh =>
            constructor
            · simp only [runMode, if_pos hlen, hrun]
              rw [List.chain'_cons']
              exact ⟨fun y hy => hhead y (Option.mem_def.mp hy),
                htrue.1⟩
            · intro e he
              simp only [runMode, if_pos hlen, hrun,
                List.head?_cons] at he
              exact ⟨_, (Option.some.inj he).symm⟩
          | ok s2 =>
            have hfalse2 := ih.2 s2
            constructor
            · simp only [runMode, if_pos hlen, hrun]
              rw [List.chain'_cons']
              constructor
              · intro y hy
                rw [Option.mem_def] at hy
                cases evs with
                | nil =>
                  simp only [List.nil_append] at hy
                  obtain ⟨st, hst⟩ := hfalse2.2 y hy
                  intro u hu
                  rw [hst] at hu
                  exact absurd hu (by simp)
                | cons e0 evs' =>
                  simp only [List.cons_append, List.head?_cons] at hy
                  exact hhead y (by rw [List.head?_cons, hy])
              · rw [List.chain'_append]
                refine ⟨htrue.1, hfalse2.1, ?_⟩
                intro x hx y hy
                rw [Option.mem_def] at hy
                obtain ⟨st, hst⟩ := hfalse2.2 y hy
                intro u hu
                rw [hst] at hu
                exact absurd hu (by simp)
            · intro e he
              simp only [runMode, if_pos hlen, hrun,
                List.head?_cons] at he
              exact ⟨_, (Option.some.inj he).symm⟩
      · constructor <;> simp [runMode, if_neg hlen]

/-- C4: along every recursive crawl, any expansion step other than the
first is immediately preceded in the event trace by a save of the
complete crawler state, and the scanned page is exactly the current page
of that saved state — the state reaches the file before the next step
begins. -/
theorem state_saved_before_next_step (cap : Nat)
    (fetch : String → List Anchor) (fuel : Nat) (s : RecState) :
    List.Chain' savedBeforeScan (find_articles_rec cap fetch fuel s).1 :=
  ((runMode_chain cap fetch fuel).1 s).1

/-! ## Claim C9 — loading a malformed state file -/

/-- C9 counterexample: a state file holding valid JSON without the
expected keys makes the loader raise (KeyError), instead of silently
keeping the defaults as the claim asserts for every malformed content. -/
theorem load_crawler_data_keyerror_counterexample :
    (load_crawler_data
        ⟨Json.num 0, Json.str "https://www.business-gazeta.ru/",
         Json.arr [], Json.arr []⟩
        (some (some (Json.obj [])))).2 = some PyErr.keyError := rfl

/-- C9 (amended): only a JSON parse failure (and an absent file) is
silently absorbed, leaving the defaults in place; a file that parses must
be an object carrying all four state keys, or the loader escapes with an
exception (KeyError or TypeError), possibly after reassigning a prefix of
the fields. -/
theorem load_crawler_data_amended :
    ∀ (d : RawCrawlData) (file : Option (Option Json)),
      ((load_crawler_data d file).2 = none ↔
        (file = none ∨ file = some none ∨
          ∃ j, file = some (some j) ∧ wellKeyed j = true)) ∧
      ((file = none ∨ file = some none) →
        load_crawler_data d file = (d, none)) := by
  intro d file
  match file with
  | none => exact ⟨by simp [load_crawler_data], fun _ => rfl⟩
  | some none => exact ⟨by simp [load_crawler_data], fun _ => rfl⟩
  | some (some j) =>
    constructor
    · simp only [load_crawler_data, wellKeyed]
      cases h1 : objGet j "num_visited_urls" with
      | error e => simp [h1]
      | ok a =>
        cases h2 : objGet j "start_url" with
        | error e => simp [h1, h2]
        | ok b =>
          cases h3 : objGet j "urls" with
          | error e => simp [h1, h2, h3]
          | ok c =>
            cases h4 : objGet j "visited_urls" with
            | error e => simp [h1, h2, h3, h4]
            | ok e2 => simp [h1, h2, h3, h4]
    · intro hcon
      rcases hcon with hcon | hcon <;> exact absurd hcon (by simp)

/-- C9 witness: the defaults-kept clause at an absent file. -/
theorem load_crawler_data_amended_witness :
    load_crawler_data
        ⟨Json.num 0, Json.str "https://www.business-gazeta.ru/",
         Json.arr [], Json.arr []⟩ none
      = (⟨Json.num 0, Json.str "https://www.business-gazeta.ru/",
          Json.arr [], Json.arr []⟩, none) :=
  (load_crawler_data_amended
    ⟨Json.num 0, Json.str "https://www.business-gazeta.ru/",
     Json.arr [], Json.arr []⟩ none).2 (Or.inl rfl)

/-! ## Claim C10 — validation of the article count -/

/-- C10: with the seed check passing, validation raises the
incorrect-number error exactly when the configured count is not an int,
is a bool, or is negative, and the out-of-range error exactly when it is
a genuine nonnegative int above the limit of 150; a count of zero passes
the whole validation on an otherwise well-formed config. -/
theorem total_articles_validation :
    (∀ c : ConfigDTO, validateSeeds c.seed_urls = .ok () →
      ((validate_config_content c = .error .incorrectNumberOfArticles) ↔
        (¬ isinstInt c.total_articles = true
          ∨ isinstBool c.total_articles = true
          ∨ pyIntVal c.total_articles < 0)) ∧
      ((validate_config_content c = .error .numberOfArticlesOutOfRange) ↔
        (isinstInt c.total_articles = true
          ∧ ¬ isinstBool c.total_articles = true
          ∧ 0 ≤ pyIntVal c.total_articles
          ∧ pyIntVal c.total_articles > NUM_ARTICLES_UPPER_LIMIT))) ∧
    validate_config_content
      ⟨.list [.str "https://www.business-gazeta.ru/"], .int 0, .dict [],
       .str "utf-8", .int 5, .bool true, .bool false⟩ = .ok () := by
  constructor
  · intro c hseeds
    simp only [validate_config_content, hseeds]
    constructor
    · by_cases h1 : ¬ isinstInt c.total_articles = true
          ∨ isinstBool c.total_articles = true
          ∨ pyIntVal c.total_articles < 0
      · rw [if_pos h1]
        simp only [Except.error.injEq, true_iff]
        simpa using h1
      · rw [if_neg h1]
        push_neg at h1
        constructor
        · intro hcon
          exact absurd hcon (by split_ifs <;> simp)
        · intro hcon
          rcases hcon with hc | hc | hc
          · exact absurd h1.1 hc
          · exact absurd hc (by simp [h1.2.1])
          · exact absurd h1.2.2 (by omega)
    · by_cases h1 : ¬ isinstInt c.total_articles = true
          ∨ isinstBool c.total_articles = true
          ∨ pyIntVal c.total_articles < 0
      · rw [if_pos h1]
        constructor
        · intro hcon
          exact absurd hcon (by simp)
        · intro hcon
          push_neg at hcon
          rcases h1 with hc | hc | hc
          · exact absurd hcon.1 hc
          · exact absurd hc (by simp [hcon.2.1])
          · exact absurd hcon.2.2.1 (by omega)
      · rw [if_neg h1]
        push_neg at h1
        by_cases h2 : pyIntVal c.total_articles > NUM_ARTICLES_UPPER_LIMIT
        · rw [if_pos h2]
          simp only [Except.error.injEq, true_iff]
          exact ⟨h1.1, by simp [h1.2.1], h1.2.2, h2⟩
        · rw [if_neg h2]
          constructor
          · intro hcon
            exact absurd hcon (by split_ifs <;> simp)
          · intro hcon
            exact absurd hcon.2.2.2 h2
  · rfl

/-- C10 witness: the equivalence applied to a config whose count is a
string, and the concrete zero-count acceptance. -/
theorem total_articles_validation_witness :
    validate_config_content
        ⟨.list [.str "https://www.business-gazeta.ru/"], .str "ten",
         .dict [], .str "utf-8", .int 5, .bool true, .bool false⟩
      = .error .incorrectNumberOfArticles :=
  ((total_articles_validation.1
      ⟨.list [.str "https://www.business-gazeta.ru/"], .str "ten",
       .dict [], .str "utf-8", .int 5, .bool true, .bool false⟩
      rfl).1).mpr (Or.inl (by decide))

/-! ## Concrete checks of the library models -/

/-- The `urljoin` model on the claims' concrete hrefs. -/
theorem urljoin_model_checks :
    urljoinS "https://www.business-gazeta.ru/" "/news/123"
        = "https://www.business-gazeta.ru/news/123" ∧
      urljoinS "https://www.business-gazeta.ru/" "foo"
        = "https://www.business-gazeta.ru/foo" ∧
      urljoinS "https://www.business-gazeta.ru/" "ftp://h/p" = "ftp://h/p" ∧
      urljoinS "https://www.business-gazeta.ru/" "a/../b"
        = "https://www.business-gazeta.ru/b" ∧
      urlparseNetlocS "https://www.business-gazeta.ru/x"
        = "www.business-gazeta.ru" ∧
      urlparseNetlocS "/x" = "" := by
  refine ⟨by decide, by decide, by decide, by decide, by decide, by decide⟩

/-- The `strptime` model on concrete inputs of the fixed format. -/
theorem strptime_model_checks :
    strptimeYmdHMS "2023-05-01 10:00:00" = some ⟨2023, 5, 1, 10, 0, 0⟩ ∧
      strptimeYmdHMS "2023-5-1 9:5:7" = some ⟨2023, 5, 1, 9, 5, 7⟩ ∧
      strptimeYmdHMS "2023-02-30 10:00:00" = none ∧
      strptimeYmdHMS "2023-05-01T10:00:00" = none := by
  refine ⟨by decide, by decide, by decide, by decide⟩
